import Mathlib

/-!
Shallow embedding of `src/pythongovernos.py`, a linear pipeline that
fetches three SGS (Banco Central) time series, aligns them on a monthly
calendar, expands the quarterly GDP series to months, and exports one CSV
table per configured government period.

Modelling conventions:
* Dates are plain `(year, month, day)` triples of naturals.
* Numeric series values are `Option ℚ` (`none` models pandas `NaN`).
* A fetched series is an association list `List (Date × Option ℚ)`;
  pandas `reindex` on a duplicate-free index is exact-label lookup.
* Network behaviour is an oracle `Nat → Attempt` giving the outcome of
  each HTTP attempt; exceptions raised in Python become `Option`/sum
  results here.
-/

namespace PyGov

/-- A calendar date as stored in a pandas `Timestamp` (time-of-day is
always midnight in this program, so it is omitted). -/
structure Date where
  year : Nat
  month : Nat
  day : Nat
deriving DecidableEq, Repr

/-- The character for a single decimal digit (`n` taken mod 10). -/
def digitChar (n : Nat) : Char := Char.ofNat (48 + n % 10)

/-- Numeric value of a decimal digit character, `none` on non-digits. -/
def digitVal (c : Char) : Option Nat :=
  if c.isDigit then some (c.toNat - 48) else none

/-- Two-digit zero-padded rendering, as `strftime` `%d`/`%m` produce. -/
def pad2str (n : Nat) : String := String.mk [digitChar (n / 10), digitChar n]

/-- Four-digit rendering, as `strftime` `%Y` produces for years 1000–9999. -/
def pad4str (n : Nat) : String :=
  String.mk [digitChar (n / 1000), digitChar (n / 100), digitChar (n / 10), digitChar n]

/-- Gregorian leap-year test. -/
def isLeap (y : Nat) : Bool := (y % 4 == 0 && y % 100 != 0) || (y % 400 == 0)

/-- Number of days of month `m` of year `y`. -/
def daysInMonth (y m : Nat) : Nat :=
  if m = 2 then (if isLeap y then 29 else 28)
  else if m = 4 ∨ m = 6 ∨ m = 9 ∨ m = 11 then 30
  else 31

/-- The range checks `pandas.to_datetime` performs on a year/month/day triple. -/
def validDate (y m d : Nat) : Bool :=
  decide (1 ≤ m ∧ m ≤ 12 ∧ 1 ≤ d ∧ d ≤ daysInMonth y m)

/-- Embedding of `_fmt`: `pd.to_datetime(d).strftime("%d/%m/%Y")` restricted
to the `AAAA-MM-DD` ISO form the program feeds it (the two configured range
endpoints). An invalid string makes `pd.to_datetime` raise, modelled `none`. -/
def _fmt (s : String) : Option String :=
  match s.data with
  | [y1, y2, y3, y4, h1, mo1, mo2, h2, d1, d2] =>
    match digitVal y1, digitVal y2, digitVal y3, digitVal y4,
          digitVal mo1, digitVal mo2, digitVal d1, digitVal d2 with
    | some a, some b, some c, some e, some f, some g, some h, some i =>
      if h1 = '-' ∧ h2 = '-' ∧
          validDate (1000 * a + 100 * b + 10 * c + e) (10 * f + g) (10 * h + i) then
        some (String.mk [d1, d2, '/', mo1, mo2, '/', y1, y2, y3, y4])
      else none
    | _, _, _, _, _, _, _, _ => none
  | _ => none

/-- Embedding of `valor.str.replace(",", ".")`: literal replacement of every
comma by a dot. -/
def commaToDot (s : String) : String :=
  String.mk (s.data.map (fun c => if c = ',' then '.' else c))

/-- Accumulating digit run: `none` as soon as a non-digit appears. -/
def digitsAcc : List Char → Nat → Option Nat
  | [], acc => some acc
  | c :: rest, acc =>
    match digitVal c with
    | some v => digitsAcc rest (10 * acc + v)
    | none => none

/-- Value of a non-empty all-digit character run. -/
def parseDigits (l : List Char) : Option Nat :=
  match l with
  | [] => none
  | _ => digitsAcc l 0

/-- Value of a possibly-empty all-digit run (empty ↦ 0); used for the two
sides of a decimal point, where either side may be empty but not both. -/
def parseDigits0 (l : List Char) : Option Nat :=
  digitsAcc l 0

/-- Embedding of `pd.to_numeric(s, errors="coerce")` on one string: optional
surrounding spaces and sign, then a plain decimal numeral (`12`, `12.`, `.5`,
`12.5`); anything else coerces to `NaN`, i.e. `none`. -/
def pyToNumeric (s : String) : Option ℚ :=
  let l := ((s.data.dropWhile (fun c => c = ' ')).reverse.dropWhile
    (fun c => c = ' ')).reverse
  let sl : ℚ × List Char :=
    match l with
    | '-' :: rest => (-1, rest)
    | '+' :: rest => (1, rest)
    | _ => (1, l)
  match sl.2.splitOn '.' with
  | [ip] => (parseDigits ip).map (fun n => sl.1 * n)
  | [ip, fp] =>
    if ip = [] ∧ fp = [] then none
    else
      match parseDigits0 ip, parseDigits0 fp with
      | some n, some m => some (sl.1 * (n + (m : ℚ) / (10 : ℚ) ^ fp.length))
      | _, _ => none
  | _ => none

/-- Embedding of `pd.to_datetime(s, dayfirst=True)` on the `DD/MM/AAAA`
strings the SGS API returns; `none` models the exception on anything that
is not a valid day-first date. -/
def parseDateBR (s : String) : Option Date :=
  match s.data.splitOn '/' with
  | [ds, ms, ys] =>
    match parseDigits ds, parseDigits ms, parseDigits ys with
    | some d, some m, some y => if validDate y m d then some ⟨y, m, d⟩ else none
    | _, _, _ => none
  | _ => none

/-- One record of the JSON array the SGS API returns: a day-first date
string and a decimal-comma value string. -/
structure SGSRecord where
  data : String
  valor : String
deriving DecidableEq, Repr

/-- One parsed point: `to_datetime` on the date (raising = `none`), then
`to_numeric(..., errors="coerce")` on the comma-to-dot converted value. -/
def sgsPoint (r : SGSRecord) : Option (Date × Option ℚ) :=
  (parseDateBR r.data).map (fun d => (d, pyToNumeric (commaToDot r.valor)))

/-- All records parsed in order; `none` if any date string raises. -/
def sgsPoints : List SGSRecord → Option (List (Date × Option ℚ))
  | [] => some []
  | r :: rest =>
    match sgsPoint r, sgsPoints rest with
    | some p, some l => some (p :: l)
    | _, _ => none

/-- Comparison used by `sort_index`: lexicographic on (year, month, day). -/
def dateLeb (a b : Date) : Bool :=
  decide (a.year < b.year ∨ (a.year = b.year ∧
    (a.month < b.month ∨ (a.month = b.month ∧ a.day ≤ b.day))))

/-- Insertion into a date-sorted association list. -/
def insertByDate (p : Date × Option ℚ) :
    List (Date × Option ℚ) → List (Date × Option ℚ)
  | [] => [p]
  | q :: rest => if dateLeb p.1 q.1 then p :: q :: rest else q :: insertByDate p rest

/-- Embedding of `.sort_index()` on a series. -/
def sortByDate : List (Date × Option ℚ) → List (Date × Option ℚ)
  | [] => []
  | p :: rest => insertByDate p (sortByDate rest)

/-- The successful-attempt body of `fetch_sgs`: build the dataframe, parse
dates and values, index by date and sort. `none` when `to_datetime` raises. -/
def parseRecords (recs : List SGSRecord) : Option (List (Date × Option ℚ)) :=
  (sgsPoints recs).map sortByDate

/-- Outcome of one HTTP attempt as seen by the `try` block: either a raised
transport exception, or a response with a status code and (already decoded)
JSON array body. -/
inductive Attempt where
  | failure (msg : String)
  | response (status : Nat) (records : List SGSRecord)
deriving DecidableEq, Repr

/-- What one loop iteration of `fetch_sgs` does with its attempt: returns a
parsed series exactly when the status is 200, the body is non-empty, and
every date parses; every other case falls through to the warning + sleep. -/
def attemptStep : Attempt → Option (List (Date × Option ℚ))
  | .failure _ => none
  | .response status recs =>
    if status = 200 then
      if recs ≠ [] then parseRecords recs else none
    else none

/-- The conditions under which one loop iteration of `fetch_sgs` falls
through to the warning print and the 2-second sleep: a raised transport
exception, a non-200 status, an empty JSON body, or a body whose dates do
not parse. -/
def attemptFails : Attempt → Prop
  | .failure _ => True
  | .response status recs =>
    status ≠ 200 ∨ recs = [] ∨ parseRecords recs = none

instance (a : Attempt) : Decidable (attemptFails a) := by
  cases a <;> (unfold attemptFails; infer_instance)

/-- Result of a whole `fetch_sgs` call. -/
inductive FetchOutcome where
  | success (series : List (Date × Option ℚ))
  | exhausted
deriving DecidableEq, Repr

/-- Observable trace of `fetch_sgs`: outcome, attempts actually made, and
console warnings printed (one per failed attempt, before its sleep). -/
structure FetchRun where
  outcome : FetchOutcome
  attemptsMade : Nat
  warnings : Nat
deriving DecidableEq, Repr

/-- The retry loop `for i in range(1, RETRY + 1)` over a list of pending
attempt outcomes: a successful step returns at once, a failed one logs a
warning and retries; an empty list means the bound is exhausted. -/
def fetchFrom : List Attempt → FetchRun
  | [] => ⟨.exhausted, 0, 0⟩
  | a :: rest =>
    match attemptStep a with
    | some s => ⟨.success s, 1, 0⟩
    | none =>
      let r := fetchFrom rest
      ⟨r.outcome, r.attemptsMade + 1, r.warnings + 1⟩

/-- `RETRY = 3`. -/
def RETRY : Nat := 3

/-- `TIMEOUT = 15` seconds per attempt. -/
def TIMEOUT : Nat := 15

/-- Embedding of `fetch_sgs`: runs at most `RETRY` attempts drawn from the
oracle (attempt `i` of the loop reads `oracle (i - 1)`). -/
def fetch_sgs (oracle : Nat → Attempt) : FetchRun :=
  fetchFrom ((List.range RETRY).map oracle)

/-- The series a caller receives: the parsed one on success, and the empty
`pd.Series(dtype="float64")` after exhaustion. -/
def fetchSeries (r : FetchRun) : List (Date × Option ℚ) :=
  match r.outcome with
  | .success s => s
  | .exhausted => []

/-- Exact-label lookup in a series, as pandas `reindex` aligns a
duplicate-free index (the first binding wins, which coincides with pandas
on the duplicate-free series this program builds). -/
def assocLookup (k : Date) : List (Date × Option ℚ) → Option (Option ℚ)
  | [] => none
  | (q, v) :: rest => if k = q then some v else assocLookup k rest

/-- Python-dict assignment `rep[k] = v`: overwrite in place if the key
exists, else append (insertion order preserved). -/
def dictInsert (k : Date) (v : Option ℚ) :
    List (Date × Option ℚ) → List (Date × Option ℚ)
  | [] => [(k, v)]
  | (q, w) :: rest =>
    if q = k then (q, v) :: rest else (q, w) :: dictInsert k v rest

/-- The lookup `{1: 1, 4: 4, 7: 7, 10: 10}[d.month]`: identity on the four
quarter-start months, a `KeyError` (= `none`) on every other month. -/
def quarterKey (m : Nat) : Option Nat :=
  if m = 1 ∨ m = 4 ∨ m = 7 ∨ m = 10 then some m else none

/-- The accumulation loop of `expand_trimestre_para_meses`: each point
writes its value at the first day of the three months of its quarter. -/
def expandAux : List (Date × Option ℚ) → List (Date × Option ℚ) →
    Option (List (Date × Option ℚ))
  | [], rep => some rep
  | (d, v) :: rest, rep =>
    match quarterKey d.month with
    | none => none
    | some m0 =>
      expandAux rest
        (dictInsert ⟨d.year, m0 + 2, 1⟩ v
          (dictInsert ⟨d.year, m0 + 1, 1⟩ v
            (dictInsert ⟨d.year, m0, 1⟩ v rep)))

/-- Embedding of `expand_trimestre_para_meses`: replicate each quarterly
value over the three months of its quarter, then sort by date; `none`
models the uncaught `KeyError` on a non-quarter-start month. -/
def expand_trimestre_para_meses (s : List (Date × Option ℚ)) :
    Option (List (Date × Option ℚ)) :=
  (expandAux s []).map sortByDate

/-- Linear month index of a date (month counted from an absolute origin). -/
def ymIndex (d : Date) : Nat := d.year * 12 + (d.month - 1)

/-- The month-start date with the given linear month index. -/
def dateOfYm (n : Nat) : Date := ⟨n / 12, n % 12 + 1, 1⟩

/-- Embedding of `calendario_mensal`: `pd.date_range(d0, d1, freq="MS")`,
the month-start dates `d` with `d0 ≤ d ≤ d1` in ascending order (the first
one is `d0` itself when `d0` is a month start, else the next month). -/
def calendario_mensal (ini fim : Date) : List Date :=
  let first := if ini.day = 1 then ymIndex ini else ymIndex ini + 1
  (List.range (ymIndex fim + 1 - first)).map (fun i => dateOfYm (first + i))

/-- `strftime("%Y%m")` for the four-digit years this program uses. -/
def fmtYYYYMM (d : Date) : String := pad4str d.year ++ pad2str d.month

/-- One output row, in the column order `montar_dataset` returns. -/
structure Row where
  period : String
  desemprego : Option ℚ
  ipca : Option ℚ
  pib_vol : Option ℚ
deriving DecidableEq, Repr

/-- The row `montar_dataset` builds for one calendar date: the `YYYYMM`
period label and the three series aligned on that exact date (`reindex`),
a date absent from a series giving a null cell. -/
def montarRow (sD sI e : List (Date × Option ℚ)) (d : Date) : Row :=
  ⟨fmtYYYYMM d, (assocLookup d sD).join, (assocLookup d sI).join,
    (assocLookup d e).join⟩

/-- Embedding of `montar_dataset`, parameterised by the three series the
fetches returned: build the monthly calendar, align the two monthly series
on it by exact date, expand then align the quarterly one, and tag each row
with its `YYYYMM` period label. `none` models the uncaught `KeyError`
escaping from the quarterly expansion. -/
def montar_dataset (ini fim : Date)
    (sD sI sP : List (Date × Option ℚ)) : Option (List Row) :=
  match expand_trimestre_para_meses sP with
  | none => none
  | some e =>
    some ((calendario_mensal ini fim).map (montarRow sD sI e))

/-- Serialisation of one cell by `to_csv`: `NaN` becomes the empty string;
the float rendering itself is abstracted as `render`. -/
def csvCell (render : ℚ → String) : Option ℚ → String
  | none => ""
  | some q => render q

/-- One CSV data line: the four columns in order, comma-separated, with no
index column (`index=False`). -/
def rowLine (render : ℚ → String) (r : Row) : String :=
  r.period ++ "," ++ csvCell render r.desemprego ++ "," ++
    csvCell render r.ipca ++ "," ++ csvCell render r.pib_vol

/-- The header `to_csv` writes for the selected columns. -/
def CSV_HEADER : String := "period,desemprego,ipca,pib_vol"

/-- Embedding of `tabela.to_csv(arq, index=False)`: the header line then
one line per row. -/
def toCsvLines (render : ℚ → String) (t : List Row) : List String :=
  CSV_HEADER :: t.map (rowLine render)

/-- The two statically configured government periods. -/
def GOVERNOS : List (String × Date × Date) :=
  [("lula_ii", ⟨2007, 1, 1⟩, ⟨2010, 12, 31⟩),
   ("bolsonaro", ⟨2019, 1, 1⟩, ⟨2022, 12, 31⟩)]

/-- The four months a quarterly SGS series may be dated at. -/
def QuarterMonth (m : Nat) : Prop := m = 1 ∨ m = 4 ∨ m = 7 ∨ m = 10

instance (m : Nat) : Decidable (QuarterMonth m) := by
  unfold QuarterMonth; infer_instance

theorem quarterKey_eq_some_iff {m m0 : Nat} :
    quarterKey m = some m0 ↔ QuarterMonth m ∧ m0 = m := by
  unfold quarterKey QuarterMonth
  split <;> simp_all [eq_comm]

theorem quarterKey_eq_none_iff {m : Nat} :
    quarterKey m = none ↔ ¬ QuarterMonth m := by
  unfold quarterKey QuarterMonth
  split <;> simp_all

theorem assocLookup_dictInsert_self (k : Date) (v : Option ℚ)
    (l : List (Date × Option ℚ)) :
    assocLookup k (dictInsert k v l) = some v := by
  induction l with
  | nil => simp [dictInsert, assocLookup]
  | cons p rest ih =>
    obtain ⟨q, w⟩ := p
    by_cases h : q = k
    · subst h; simp [dictInsert, assocLookup]
    · have hk : k ≠ q := fun h' => h h'.symm
      simp [dictInsert, assocLookup, h, hk, ih]

theorem assocLookup_dictInsert_ne {k q : Date} (v : Option ℚ)
    (l : List (Date × Option ℚ)) (h : k ≠ q) :
    assocLookup k (dictInsert q v l) = assocLookup k l := by
  induction l with
  | nil => simp [dictInsert, assocLookup, h]
  | cons p rest ih =>
    obtain ⟨q', w⟩ := p
    by_cases h' : q' = q
    · subst h'; simp [dictInsert, assocLookup, h]
    · by_cases h'' : k = q' <;> simp [dictInsert, assocLookup, h', h'', ih]

theorem assocLookup_eq_none {k : Date} {l : List (Date × Option ℚ)}
    (h : ∀ p ∈ l, p.1 ≠ k) : assocLookup k l = none := by
  induction l with
  | nil => rfl
  | cons p rest ih =>
    obtain ⟨q, w⟩ := p
    have hq : q ≠ k := h (q, w) (by simp)
    have hk : k ≠ q := fun h' => hq h'.symm
    simp only [assocLookup, if_neg hk]
    exact ih (fun p hp => h p (by simp [hp]))

theorem assocLookup_mem {k : Date} {v : Option ℚ} {l : List (Date × Option ℚ)}
    (h : assocLookup k l = some v) : (k, v) ∈ l := by
  induction l with
  | nil => simp [assocLookup] at h
  | cons p rest ih =>
    obtain ⟨q, w⟩ := p
    by_cases h' : k = q
    · subst h'
      simp [assocLookup] at h
      simp [h]
    · simp [assocLookup, h'] at h
      simp [ih h]

theorem length_dictInsert_fresh {k : Date} (v : Option ℚ)
    {l : List (Date × Option ℚ)} (h : assocLookup k l = none) :
    (dictInsert k v l).length = l.length + 1 := by
  induction l with
  | nil => rfl
  | cons p rest ih =>
    obtain ⟨q, w⟩ := p
    by_cases h' : q = k
    · subst h'; simp [assocLookup] at h
    · have hk : k ≠ q := fun h'' => h' h''.symm
      simp only [assocLookup, if_neg hk] at h
      simp [dictInsert, h', ih h]

theorem mem_insertByDate {q p : Date × Option ℚ} {l : List (Date × Option ℚ)} :
    q ∈ insertByDate p l ↔ q = p ∨ q ∈ l := by
  induction l with
  | nil => simp [insertByDate]
  | cons r rest ih =>
    by_cases h : dateLeb p.1 r.1 = true
    · simp [insertByDate, h]
    · simp only [insertByDate, if_neg h, List.mem_cons, ih]
      tauto

theorem length_insertByDate (p : Date × Option ℚ) (l : List (Date × Option ℚ)) :
    (insertByDate p l).length = l.length + 1 := by
  induction l with
  | nil => rfl
  | cons r rest ih =>
    by_cases h : dateLeb p.1 r.1 = true <;> simp [insertByDate, h, ih]

theorem mem_sortByDate {q : Date × Option ℚ} {l : List (Date × Option ℚ)} :
    q ∈ sortByDate l ↔ q ∈ l := by
  induction l with
  | nil => simp [sortByDate]
  | cons p rest ih => simp [sortByDate, mem_insertByDate, ih]

theorem length_sortByDate (l : List (Date × Option ℚ)) :
    (sortByDate l).length = l.length := by
  induction l with
  | nil => rfl
  | cons p rest ih => simp [sortByDate, length_insertByDate, ih]

theorem quarter_blocks_disjoint {y y' m m' j k : Nat}
    (hm : QuarterMonth m) (hm' : QuarterMonth m')
    (hne : y ≠ y' ∨ m ≠ m') (hk : k < 3) (hj : j < 3) :
    (⟨y, m + k, 1⟩ : Date) ≠ ⟨y', m' + j, 1⟩ := by
  intro h
  have h1 : y = y' ∧ m + k = m' + j := by
    constructor
    · exact congrArg Date.year h
    · exact congrArg Date.month h
  rcases hne with hy | hmne
  · exact hy h1.1
  · rcases hm with rfl | rfl | rfl | rfl <;> rcases hm' with rfl | rfl | rfl | rfl <;>
      omega

theorem expandAux_eq_none_iff (s : List (Date × Option ℚ)) :
    ∀ rep, (expandAux s rep = none ↔ ∃ p ∈ s, ¬ QuarterMonth p.1.month) := by
  induction s with
  | nil => intro rep; simp [expandAux]
  | cons p rest ih =>
    intro rep
    obtain ⟨d, v⟩ := p
    by_cases h : QuarterMonth d.month
    · have hq : quarterKey d.month = some d.month :=
        quarterKey_eq_some_iff.mpr ⟨h, rfl⟩
      simp only [expandAux, hq]
      rw [ih]
      simp [h]
    · have hq : quarterKey d.month = none := quarterKey_eq_none_iff.mpr h
      simp only [expandAux, hq]
      simp [h]

theorem expandAux_preserve {s : List (Date × Option ℚ)}
    {key : Date} {v : Option ℚ} :
    ∀ {rep res}, expandAux s rep = some res → assocLookup key rep = some v →
    (∀ p ∈ s, ∀ m0, quarterKey p.1.month = some m0 →
      ∀ j, j < 3 → (⟨p.1.year, m0 + j, 1⟩ : Date) ≠ key) →
    assocLookup key res = some v := by
  induction s with
  | nil =>
    intro rep res hres hv _
    simp [expandAux] at hres
    subst hres; exact hv
  | cons p rest ih =>
    intro rep res hres hv hfresh
    obtain ⟨d, w⟩ := p
    simp only [expandAux] at hres
    cases hq : quarterKey d.month with
    | none => rw [hq] at hres; exact absurd hres (by simp)
    | some m0 =>
      rw [hq] at hres
      have hne : ∀ j, j < 3 → key ≠ (⟨d.year, m0 + j, 1⟩ : Date) := by
        intro j hj h
        exact hfresh (d, w) (by simp) m0 hq j hj h.symm
      have hv' : assocLookup key
          (dictInsert ⟨d.year, m0 + 2, 1⟩ w
            (dictInsert ⟨d.year, m0 + 1, 1⟩ w
              (dictInsert ⟨d.year, m0, 1⟩ w rep))) = some v := by
        rw [assocLookup_dictInsert_ne _ _ (hne 2 (by omega)),
            assocLookup_dictInsert_ne _ _ (hne 1 (by omega)),
            assocLookup_dictInsert_ne _ _ (by simpa using hne 0 (by omega))]
        exact hv
      exact ih hres hv' (fun p hp => hfresh p (by simp [hp]))

theorem expandAux_lookup {s : List (Date × Option ℚ)} {d : Date} {v : Option ℚ}
    {k : Nat}
    (hq : ∀ p ∈ s, QuarterMonth p.1.month)
    (hd : s.Pairwise (fun p q => p.1.year ≠ q.1.year ∨ p.1.month ≠ q.1.month))
    (hp : (d, v) ∈ s) (hk : k < 3) :
    ∀ {rep res}, expandAux s rep = some res →
    assocLookup ⟨d.year, d.month + k, 1⟩ res = some v := by
  induction s with
  | nil => simp at hp
  | cons p rest ih =>
    intro rep res hres
    obtain ⟨d', w⟩ := p
    have hqm : QuarterMonth d'.month := hq (d', w) (by simp)
    have hqk : quarterKey d'.month = some d'.month :=
      quarterKey_eq_some_iff.mpr ⟨hqm, rfl⟩
    simp only [expandAux, hqk] at hres
    rcases List.mem_cons.mp hp with hhead | htail
    · have hdd : d' = d ∧ w = v := by
        have := Prod.mk.injEq d' w d v
        constructor
        · exact congrArg Prod.fst hhead.symm
        · exact congrArg Prod.snd hhead.symm
      obtain ⟨rfl, rfl⟩ := hdd
      -- the three freshly written keys hold the value; later points never
      -- touch this quarter because their (year, month) differs
      have hself : assocLookup ⟨d'.year, d'.month + k, 1⟩
          (dictInsert ⟨d'.year, d'.month + 2, 1⟩ w
            (dictInsert ⟨d'.year, d'.month + 1, 1⟩ w
              (dictInsert ⟨d'.year, d'.month, 1⟩ w rep))) = some w := by
        interval_cases k
        · rw [assocLookup_dictInsert_ne _ _ (by
              intro h; have := congrArg Date.month h; simp at this),
            assocLookup_dictInsert_ne _ _ (by
              intro h; have := congrArg Date.month h; simp at this)]
          simpa using assocLookup_dictInsert_self (⟨d'.year, d'.month, 1⟩ : Date) w rep
        · rw [assocLookup_dictInsert_ne _ _ (by
              intro h; have := congrArg Date.month h; simp at this)]
          exact assocLookup_dictInsert_self _ w _
        · exact assocLookup_dictInsert_self _ w _
      refine expandAux_preserve hres hself ?_
      intro p hp' m0 hm0 j hj
      obtain ⟨hpm, rfl⟩ := quarterKey_eq_some_iff.mp hm0
      have hne : d'.year ≠ p.1.year ∨ d'.month ≠ p.1.month := by
        have := (List.pairwise_cons.mp hd).1 p hp'
        simpa using this
      intro h
      exact quarter_blocks_disjoint hpm hqm
        (by rcases hne with h' | h' <;> [exact Or.inl (Ne.symm h');
          exact Or.inr (Ne.symm h')]) hj hk h
    · exact ih (fun p hp' => hq p (by simp [hp']))
        (List.pairwise_cons.mp hd).2 htail hres

theorem expandAux_length {s : List (Date × Option ℚ)}
    (hq : ∀ p ∈ s, QuarterMonth p.1.month)
    (hd : s.Pairwise (fun p q => p.1.year ≠ q.1.year ∨ p.1.month ≠ q.1.month)) :
    ∀ {rep res}, expandAux s rep = some res →
    (∀ p ∈ s, ∀ j, j < 3 →
      assocLookup ⟨p.1.year, p.1.month + j, 1⟩ rep = none) →
    res.length = rep.length + 3 * s.length := by
  induction s with
  | nil =>
    intro rep res hres _
    simp [expandAux] at hres
    simp [← hres]
  | cons p rest ih =>
    intro rep res hres hfresh
    obtain ⟨d, w⟩ := p
    have hqm : QuarterMonth d.month := hq (d, w) (by simp)
    have hqk : quarterKey d.month = some d.month :=
      quarterKey_eq_some_iff.mpr ⟨hqm, rfl⟩
    simp only [expandAux, hqk] at hres
    have hf0 : assocLookup ⟨d.year, d.month, 1⟩ rep = none := by
      simpa using hfresh (d, w) (by simp) 0 (by omega)
    have hf1 : assocLookup ⟨d.year, d.month + 1, 1⟩ rep = none :=
      hfresh (d, w) (by simp) 1 (by omega)
    have hf2 : assocLookup ⟨d.year, d.month + 2, 1⟩ rep = none :=
      hfresh (d, w) (by simp) 2 (by omega)
    have hne21 : (⟨d.year, d.month + 2, 1⟩ : Date) ≠ ⟨d.year, d.month + 1, 1⟩ := by
      intro h; have := congrArg Date.month h; simp at this
    have hne20 : (⟨d.year, d.month + 2, 1⟩ : Date) ≠ ⟨d.year, d.month, 1⟩ := by
      intro h; have := congrArg Date.month h; simp at this
    have hne10 : (⟨d.year, d.month + 1, 1⟩ : Date) ≠ ⟨d.year, d.month, 1⟩ := by
      intro h; have := congrArg Date.month h; simp at this
    have hlen3 : (dictInsert ⟨d.year, d.month + 2, 1⟩ w
        (dictInsert ⟨d.year, d.month + 1, 1⟩ w
          (dictInsert ⟨d.year, d.month, 1⟩ w rep))).length = rep.length + 3 := by
      rw [length_dictInsert_fresh w, length_dictInsert_fresh w,
        length_dictInsert_fresh w hf0]
      · rw [assocLookup_dictInsert_ne _ _ hne10]; exact hf1
      · rw [assocLookup_dictInsert_ne _ _ hne21,
          assocLookup_dictInsert_ne _ _ hne20]; exact hf2
    have hfresh' : ∀ p ∈ rest, ∀ j, j < 3 →
        assocLookup ⟨p.1.year, p.1.month + j, 1⟩
          (dictInsert ⟨d.year, d.month + 2, 1⟩ w
            (dictInsert ⟨d.year, d.month + 1, 1⟩ w
              (dictInsert ⟨d.year, d.month, 1⟩ w rep))) = none := by
      intro p hp j hj
      have hpm : QuarterMonth p.1.month := hq p (by simp [hp])
      have hne : d.year ≠ p.1.year ∨ d.month ≠ p.1.month := by
        have := (List.pairwise_cons.mp hd).1 p hp
        simpa using this
      have hdisj : ∀ k, k < 3 →
          (⟨p.1.year, p.1.month + j, 1⟩ : Date) ≠ ⟨d.year, d.month + k, 1⟩ := by
        intro k hk
        exact quarter_blocks_disjoint hpm hqm
          (by rcases hne with h' | h' <;> [exact Or.inl (Ne.symm h');
            exact Or.inr (Ne.symm h')]) hj hk
      rw [assocLookup_dictInsert_ne _ _ (hdisj 2 (by omega)),
        assocLookup_dictInsert_ne _ _ (hdisj 1 (by omega)),
        assocLookup_dictInsert_ne _ _ (by simpa using hdisj 0 (by omega))]
      exact hfresh p (by simp [hp]) j hj
    have := ih (fun p hp => hq p (by simp [hp]))
      (List.pairwise_cons.mp hd).2 hres hfresh'
    rw [this, hlen3]
    simp [Nat.mul_add, Nat.mul_succ]
    omega

theorem expand_eq_none_iff (s : List (Date × Option ℚ)) :
    expand_trimestre_para_meses s = none ↔
      ∃ p ∈ s, ¬ QuarterMonth p.1.month := by
  unfold expand_trimestre_para_meses
  rw [Option.map_eq_none']
  exact expandAux_eq_none_iff s []

theorem join_assocLookup_some {d : Date} {s : List (Date × Option ℚ)} {v : ℚ}
    (h : (assocLookup d s).join = some v) : (d, some v) ∈ s := by
  cases hl : assocLookup d s with
  | none => rw [hl] at h; simp at h
  | some ov =>
    rw [hl] at h
    have hov : ov = some v := h
    subst hov
    exact assocLookup_mem hl

theorem montar_eq_map (ini fim : Date) (sD sI sP e : List (Date × Option ℚ))
    (he : expand_trimestre_para_meses sP = some e) :
    montar_dataset ini fim sD sI sP =
      some ((calendario_mensal ini fim).map (montarRow sD sI e)) := by
  unfold montar_dataset
  rw [he]

theorem fmtYYYYMM_length (d : Date) : (fmtYYYYMM d).length = 6 := rfl

theorem fetch_all_fail {oracle : Nat → Attempt}
    (h : ∀ i, i < RETRY → attemptStep (oracle i) = none) :
    fetch_sgs oracle = ⟨.exhausted, 3, 3⟩ := by
  have h0 := h 0 (by decide)
  have h1 := h 1 (by decide)
  have h2 := h 2 (by decide)
  have hr : fetch_sgs oracle = fetchFrom [oracle 0, oracle 1, oracle 2] := rfl
  rw [hr]
  simp [fetchFrom, h0, h1, h2]

/-- C1 (counterexample): the claim promises the right row count "regardless
of what the three fetches return", but a quarterly fetch result dated at a
non-quarter-start month makes `expand_trimestre_para_meses` raise `KeyError`
inside `montar_dataset`, so no table at all is produced for the configured
lula_ii range. -/
theorem montar_keyerror_no_table :
    montar_dataset ⟨2007, 1, 1⟩ ⟨2010, 12, 31⟩ [] []
      [(⟨2007, 2, 1⟩, some 1)] = none := rfl

/-- C1 (amended): for every period range, whenever the quarterly series'
dates all fall in months 1, 4, 7, 10 — in particular for fully-empty
series — `montar_dataset` produces a table with exactly one row per
calendar month-start date between the range's start and end inclusive. -/
theorem montar_row_count (ini fim : Date) (sD sI sP : List (Date × Option ℚ))
    (hq : ∀ p ∈ sP, QuarterMonth p.1.month) :
    ∃ t, montar_dataset ini fim sD sI sP = some t ∧
      t.length = (calendario_mensal ini fim).length := by
  cases he : expand_trimestre_para_meses sP with
  | none =>
    rw [expand_eq_none_iff] at he
    obtain ⟨p, hp, hnq⟩ := he
    exact absurd (hq p hp) hnq
  | some e =>
    rw [montar_eq_map ini fim sD sI sP e he]
    exact ⟨_, rfl, by simp⟩

/-- Witness for C1's amended theorem: the configured lula_ii range with all
three fetches empty. -/
theorem montar_row_count_witness :
    ∃ t, montar_dataset ⟨2007, 1, 1⟩ ⟨2010, 12, 31⟩ [] [] [] = some t ∧
      t.length = (calendario_mensal ⟨2007, 1, 1⟩ ⟨2010, 12, 31⟩).length :=
  montar_row_count ⟨2007, 1, 1⟩ ⟨2010, 12, 31⟩ [] [] [] (by simp)

/-- C2: on a quarterly series dated at quarter-start months (with at most
one point per year-month), the expansion succeeds and emits, for each input
point at month M, exactly three points — at the first day of months M,
M + 1, M + 2 of the same year — all carrying the input point's value. -/
theorem expand_quarterly_replicates (s : List (Date × Option ℚ))
    (hq : ∀ p ∈ s, QuarterMonth p.1.month)
    (hd : s.Pairwise (fun p q => p.1.year ≠ q.1.year ∨ p.1.month ≠ q.1.month)) :
    ∃ l, expand_trimestre_para_meses s = some l ∧ l.length = 3 * s.length ∧
      ∀ p ∈ s, ∀ k, k < 3 →
        ((⟨p.1.year, p.1.month + k, 1⟩ : Date), p.2) ∈ l := by
  cases hres : expandAux s [] with
  | none =>
    rw [expandAux_eq_none_iff s []] at hres
    obtain ⟨p, hp, hnq⟩ := hres
    exact absurd (hq p hp) hnq
  | some res =>
    refine ⟨sortByDate res, ?_, ?_, ?_⟩
    · unfold expand_trimestre_para_meses
      rw [hres]
      rfl
    · rw [length_sortByDate]
      have := expandAux_length hq hd hres (by intro p hp j hj; rfl)
      simpa using this
    · intro p hp k hk
      have hp' : (p.1, p.2) ∈ s := by rwa [Prod.mk.eta]
      have hlk := expandAux_lookup hq hd hp' hk hres
      exact mem_sortByDate.mpr (assocLookup_mem hlk)

/-- Witness for C2: quarterly value 100 at 2007-01-01 appears at 2007-01-01,
2007-02-01 and 2007-03-01. -/
theorem expand_quarterly_replicates_witness :
    ∃ l, expand_trimestre_para_meses [(⟨2007, 1, 1⟩, some 100)] = some l ∧
      l.length = 3 * ([((⟨2007, 1, 1⟩ : Date), (some 100 : Option ℚ))]).length ∧
      ∀ p ∈ [((⟨2007, 1, 1⟩ : Date), (some 100 : Option ℚ))], ∀ k, k < 3 →
        ((⟨p.1.year, p.1.month + k, 1⟩ : Date), p.2) ∈ l :=
  expand_quarterly_replicates [(⟨2007, 1, 1⟩, some 100)]
    (by simp [QuarterMonth]) (by simp)

/-- C3 (counterexample): a status-200 response with an empty JSON body does
not return; the claim says a success (200) response returns without any
further attempt, yet here every attempt gets status 200 and the fetch still
makes 3 attempts, logs 3 warnings, and exhausts its retries. -/
theorem fetch_200_empty_body_retries :
    fetch_sgs (fun _ => Attempt.response 200 []) =
      ⟨.exhausted, 3, 3⟩ := rfl

/-- C3 (amended): one loop iteration retries — logging its warning and
sleeping — exactly when the attempt raises a transport failure, gets a
non-200 status, or gets a 200 response whose body is empty or has an
unparseable date; a 200 response with a non-empty parseable body returns
the parsed series with no further attempt, warning or delay. -/
theorem fetch_retry_exactly_on_failure (a : Attempt) (rest : List Attempt) :
    (attemptStep a = none ↔ attemptFails a) ∧
    (∀ s, attemptStep a = some s →
      fetchFrom (a :: rest) = ⟨.success s, 1, 0⟩) ∧
    (attemptStep a = none → fetchFrom (a :: rest) =
      ⟨(fetchFrom rest).outcome, (fetchFrom rest).attemptsMade + 1,
        (fetchFrom rest).warnings + 1⟩) := by
  refine ⟨?_, ?_, ?_⟩
  · cases a with
    | failure msg => simp [attemptStep, attemptFails]
    | response st recs =>
      unfold attemptStep attemptFails
      by_cases hst : st = 200
      · subst hst
        by_cases hrec : recs = []
        · simp [hrec]
        · simp [hrec]
      · simp [hst]
  · intro s h
    simp [fetchFrom, h]
  · intro h
    simp [fetchFrom, h]

/-- Witness for C3's amended theorem: a single transport failure logs one
warning and exhausts a one-element attempt list. -/
theorem fetch_retry_exactly_on_failure_witness :
    fetchFrom [Attempt.failure "timeout"] = ⟨.exhausted, 1, 1⟩ := by
  have h := (fetch_retry_exactly_on_failure (Attempt.failure "timeout") []).2.2 rfl
  exact h

/-- C4: when no attempt succeeds, `fetch_sgs` makes exactly `RETRY = 3`
attempts — no fewer, no more — before giving up. -/
theorem fetch_exhausts_three_attempts (oracle : Nat → Attempt)
    (h : ∀ i, i < RETRY → attemptStep (oracle i) = none) :
    (fetch_sgs oracle).attemptsMade = 3 ∧
      (fetch_sgs oracle).outcome = .exhausted := by
  rw [fetch_all_fail h]
  exact ⟨rfl, rfl⟩

/-- Witness for C4: an oracle whose every attempt raises a transport
failure. -/
theorem fetch_exhausts_three_attempts_witness :
    (fetch_sgs (fun _ => Attempt.failure "connection reset")).attemptsMade = 3 ∧
      (fetch_sgs (fun _ => Attempt.failure "connection reset")).outcome =
        .exhausted :=
  fetch_exhausts_three_attempts (fun _ => Attempt.failure "connection reset")
    (fun _ _ => rfl)

/-- C5: when every attempt fails, `fetch_sgs` terminates normally (no
exception reaches the caller), hands back the empty series, and the failure
surfaces only as the `RETRY` console warnings. -/
theorem fetch_exhausted_returns_empty (oracle : Nat → Attempt)
    (h : ∀ i, i < RETRY → attemptStep (oracle i) = none) :
    fetchSeries (fetch_sgs oracle) = [] ∧
      (fetch_sgs oracle).outcome = .exhausted ∧
      (fetch_sgs oracle).warnings = RETRY := by
  rw [fetch_all_fail h]
  exact ⟨rfl, rfl, rfl⟩

/-- Witness for C5: an oracle answering 500 on every attempt. -/
theorem fetch_exhausted_returns_empty_witness :
    fetchSeries (fetch_sgs (fun _ => Attempt.response 500 [])) = [] ∧
      (fetch_sgs (fun _ => Attempt.response 500 [])).outcome = .exhausted ∧
      (fetch_sgs (fun _ => Attempt.response 500 [])).warnings = RETRY :=
  fetch_exhausted_returns_empty (fun _ => Attempt.response 500 [])
    (fun _ _ => rfl)

/-- C6: in an assembled table, every calendar month has its row, tagged with
its period label; a cell is null whenever no (expanded) series point carries
exactly that month-start date; and any value appearing in a cell comes from
a point dated exactly at the row's month-start date, so values at other
dates never appear. -/
theorem montar_exact_alignment (ini fim : Date)
    (sD sI sP e : List (Date × Option ℚ)) (t : List Row)
    (he : expand_trimestre_para_meses sP = some e)
    (ht : montar_dataset ini fim sD sI sP = some t) :
    t.length = (calendario_mensal ini fim).length ∧
    ∀ i, i < (calendario_mensal ini fim).length →
      ∃ d r, (calendario_mensal ini fim)[i]? = some d ∧ t[i]? = some r ∧
        r.period = fmtYYYYMM d ∧
        ((∀ p ∈ sD, p.1 ≠ d) → r.desemprego = none) ∧
        ((∀ p ∈ sI, p.1 ≠ d) → r.ipca = none) ∧
        ((∀ p ∈ e, p.1 ≠ d) → r.pib_vol = none) ∧
        (∀ v : ℚ, r.desemprego = some v → (d, some v) ∈ sD) ∧
        (∀ v : ℚ, r.ipca = some v → (d, some v) ∈ sI) ∧
        (∀ v : ℚ, r.pib_vol = some v → (d, some v) ∈ e) := by
  rw [montar_eq_map ini fim sD sI sP e he] at ht
  have ht2 : t = (calendario_mensal ini fim).map (montarRow sD sI e) :=
    (Option.some.inj ht).symm
  subst ht2
  refine ⟨by simp, ?_⟩
  intro i hi
  have hd : (calendario_mensal ini fim)[i]? =
      some ((calendario_mensal ini fim).get ⟨i, hi⟩) :=
    List.getElem?_eq_getElem hi
  refine ⟨(calendario_mensal ini fim).get ⟨i, hi⟩,
    montarRow sD sI e ((calendario_mensal ini fim).get ⟨i, hi⟩),
    hd, ?_, rfl, ?_, ?_, ?_, ?_, ?_, ?_⟩
  · rw [List.getElem?_map, hd]
    rfl
  · intro hall
    show (assocLookup ((calendario_mensal ini fim).get ⟨i, hi⟩) sD).join = none
    rw [assocLookup_eq_none hall]
    rfl
  · intro hall
    show (assocLookup ((calendario_mensal ini fim).get ⟨i, hi⟩) sI).join = none
    rw [assocLookup_eq_none hall]
    rfl
  · intro hall
    show (assocLookup ((calendario_mensal ini fim).get ⟨i, hi⟩) e).join = none
    rw [assocLookup_eq_none hall]
    rfl
  · intro v hv
    exact join_assocLookup_some hv
  · intro v hv
    exact join_assocLookup_some hv
  · intro v hv
    exact join_assocLookup_some hv

/-- Witness for C6: the one-month range 2007-01-01..2007-01-31, with one
unemployment point at the month start and the other series empty. -/
theorem montar_exact_alignment_witness :
    ([(⟨"200701", some 5, none, none⟩ : Row)]).length =
      (calendario_mensal ⟨2007, 1, 1⟩ ⟨2007, 1, 31⟩).length ∧
    ∀ i, i < (calendario_mensal ⟨2007, 1, 1⟩ ⟨2007, 1, 31⟩).length →
      ∃ d r, (calendario_mensal ⟨2007, 1, 1⟩ ⟨2007, 1, 31⟩)[i]? = some d ∧
        ([(⟨"200701", some 5, none, none⟩ : Row)])[i]? = some r ∧
        r.period = fmtYYYYMM d ∧
        ((∀ p ∈ [((⟨2007, 1, 1⟩ : Date), (some 5 : Option ℚ))], p.1 ≠ d) →
          r.desemprego = none) ∧
        ((∀ p ∈ ([] : List (Date × Option ℚ)), p.1 ≠ d) → r.ipca = none) ∧
        ((∀ p ∈ ([] : List (Date × Option ℚ)), p.1 ≠ d) → r.pib_vol = none) ∧
        (∀ v : ℚ, r.desemprego = some v →
          (d, some v) ∈ [((⟨2007, 1, 1⟩ : Date), (some 5 : Option ℚ))]) ∧
        (∀ v : ℚ, r.ipca = some v →
          (d, some v) ∈ ([] : List (Date × Option ℚ))) ∧
        (∀ v : ℚ, r.pib_vol = some v →
          (d, some v) ∈ ([] : List (Date × Option ℚ))) :=
  montar_exact_alignment ⟨2007, 1, 1⟩ ⟨2007, 1, 31⟩
    [(⟨2007, 1, 1⟩, some 5)] [] [] [] [⟨"200701", some 5, none, none⟩]
    rfl rfl

theorem sgsPoints_of_dates {recs : List SGSRecord}
    (hd : ∀ r ∈ recs, (parseDateBR r.data).isSome) :
    ∃ pl, sgsPoints recs = some pl ∧ pl.length = recs.length ∧
      ∀ r ∈ recs, ∀ d, parseDateBR r.data = some d →
        (d, pyToNumeric (commaToDot r.valor)) ∈ pl := by
  induction recs with
  | nil => exact ⟨[], rfl, rfl, by simp⟩
  | cons r rest ih =>
    have hr : (parseDateBR r.data).isSome := hd r (by simp)
    obtain ⟨d0, hd0⟩ := Option.isSome_iff_exists.mp hr
    obtain ⟨pl, hpl, hlen, hmem⟩ := ih (fun r' h' => hd r' (by simp [h']))
    refine ⟨(d0, pyToNumeric (commaToDot r.valor)) :: pl, ?_,
      by simp [hlen], ?_⟩
    · simp [sgsPoints, sgsPoint, hd0, hpl]
    · intro r' hr' d hdp
      rcases List.mem_cons.mp hr' with rfl | htail
      · rw [hd0] at hdp
        have hdd : d0 = d := Option.some.inj hdp
        subst hdd
        exact List.mem_cons_self _ _
      · exact List.mem_cons_of_mem _ (hmem r' htail d hdp)

/-- C7: parsing a successful response converts each value string by
replacing every ',' with '.' and coercing to a number, an unparseable value
coercing to missing (`none`) rather than raising: whenever all dates parse,
the whole series is returned, one point per record, each carrying
`pyToNumeric (commaToDot valor)` as its (possibly missing) value. -/
theorem fetch_parse_decimal_comma (recs : List SGSRecord)
    (hd : ∀ r ∈ recs, (parseDateBR r.data).isSome) :
    ∃ l, parseRecords recs = some l ∧ l.length = recs.length ∧
      ∀ r ∈ recs, ∀ d, parseDateBR r.data = some d →
        (d, pyToNumeric (commaToDot r.valor)) ∈ l := by
  obtain ⟨pl, hpl, hlen, hmem⟩ := sgsPoints_of_dates hd
  refine ⟨sortByDate pl, ?_, ?_, ?_⟩
  · unfold parseRecords
    rw [hpl]
    rfl
  · rw [length_sortByDate, hlen]
  · intro r hr d hdp
    exact mem_sortByDate.mpr (hmem r hr d hdp)

/-- Witness for C7: "12,5" is kept as the number 12.5 while "abc" degrades
to a missing value in a series that is still returned in full. -/
theorem fetch_parse_decimal_comma_witness :
    ∃ l, parseRecords [⟨"01/01/2019", "12,5"⟩, ⟨"01/02/2019", "abc"⟩] =
        some l ∧
      l.length =
        ([⟨"01/01/2019", "12,5"⟩, ⟨"01/02/2019", "abc"⟩] :
          List SGSRecord).length ∧
      ∀ r ∈ ([⟨"01/01/2019", "12,5"⟩, ⟨"01/02/2019", "abc"⟩] :
          List SGSRecord),
        ∀ d, parseDateBR r.data = some d →
          (d, pyToNumeric (commaToDot r.valor)) ∈ l :=
  fetch_parse_decimal_comma
    [⟨"01/01/2019", "12,5"⟩, ⟨"01/02/2019", "abc"⟩] (by decide)

/-- C8: on every valid ISO date string `AAAA-MM-DD`, the request formatter
returns the day/month/year string `DD/MM/AAAA` obtained by rearranging the
same digits. -/
theorem fmt_valid_iso (y1 y2 y3 y4 mo1 mo2 d1 d2 : Char)
    (a b c e f g h i : Nat)
    (ha : digitVal y1 = some a) (hb : digitVal y2 = some b)
    (hc : digitVal y3 = some c) (hy4 : digitVal y4 = some e)
    (hf : digitVal mo1 = some f) (hg : digitVal mo2 = some g)
    (hh : digitVal d1 = some h) (hi : digitVal d2 = some i)
    (hv : validDate (1000 * a + 100 * b + 10 * c + e) (10 * f + g)
      (10 * h + i) = true) :
    _fmt (String.mk [y1, y2, y3, y4, '-', mo1, mo2, '-', d1, d2]) =
      some (String.mk [d1, d2, '/', mo1, mo2, '/', y1, y2, y3, y4]) := by
  simp only [_fmt, ha, hb, hc, hy4, hf, hg, hh, hi]
  simp [hv]

/-- Witness for C8: the spec's example, `_fmt "2019-01-01" = "01/01/2019"`. -/
theorem fmt_valid_iso_witness : _fmt "2019-01-01" = some "01/01/2019" :=
  fmt_valid_iso '2' '0' '1' '9' '0' '1' '0' '1' 2 0 1 9 0 1 0 1
    rfl rfl rfl rfl rfl rfl rfl rfl (by decide)

/-- C9: an exported table serialises as the header line
`period,desemprego,ipca,pib_vol` followed by exactly one data line per
calendar month of the configured range; each data line is the four cells in
that order with no index column, and its period field is the six-digit
YYYYMM label of the row's month. -/
theorem export_csv_header_and_rows (render : ℚ → String) (gov : String)
    (ini fim : Date) (sD sI sP : List (Date × Option ℚ))
    (_hg : (gov, ini, fim) ∈ GOVERNOS)
    (hq : ∀ p ∈ sP, QuarterMonth p.1.month) :
    ∃ t, montar_dataset ini fim sD sI sP = some t ∧
      (toCsvLines render t).head? = some "period,desemprego,ipca,pib_vol" ∧
      (toCsvLines render t).length = (calendario_mensal ini fim).length + 1 ∧
      ∀ i, i < t.length →
        ∃ d r, (calendario_mensal ini fim)[i]? = some d ∧ t[i]? = some r ∧
          r.period = fmtYYYYMM d ∧ r.period.length = 6 ∧
          (toCsvLines render t)[i + 1]? = some (r.period ++ "," ++
            csvCell render r.desemprego ++ "," ++ csvCell render r.ipca ++
            "," ++ csvCell render r.pib_vol) := by
  cases he : expand_trimestre_para_meses sP with
  | none =>
    rw [expand_eq_none_iff] at he
    obtain ⟨p, hp, hnq⟩ := he
    exact absurd (hq p hp) hnq
  | some e =>
    rw [montar_eq_map ini fim sD sI sP e he]
    refine ⟨_, rfl, rfl, by simp [toCsvLines], ?_⟩
    intro i hi
    have hi' : i < (calendario_mensal ini fim).length := by
      simpa using hi
    have hd : (calendario_mensal ini fim)[i]? =
        some ((calendario_mensal ini fim).get ⟨i, hi'⟩) :=
      List.getElem?_eq_getElem hi'
    refine ⟨(calendario_mensal ini fim).get ⟨i, hi'⟩,
      montarRow sD sI e ((calendario_mensal ini fim).get ⟨i, hi'⟩),
      hd, ?_, rfl, fmtYYYYMM_length _, ?_⟩
    · rw [List.getElem?_map, hd]
      rfl
    · simp only [toCsvLines, List.getElem?_cons_succ, List.getElem?_map, hd]
      rfl

/-- Witness for C9: the configured lula_ii period with all fetches empty and
values rendered by `toString`. -/
theorem export_csv_header_and_rows_witness :
    ∃ t, montar_dataset ⟨2007, 1, 1⟩ ⟨2010, 12, 31⟩ [] [] [] = some t ∧
      (toCsvLines (fun q => toString q) t).head? =
        some "period,desemprego,ipca,pib_vol" ∧
      (toCsvLines (fun q => toString q) t).length =
        (calendario_mensal ⟨2007, 1, 1⟩ ⟨2010, 12, 31⟩).length + 1 ∧
      ∀ i, i < t.length →
        ∃ d r, (calendario_mensal ⟨2007, 1, 1⟩ ⟨2010, 12, 31⟩)[i]? = some d ∧
          t[i]? = some r ∧
          r.period = fmtYYYYMM d ∧ r.period.length = 6 ∧
          (toCsvLines (fun q => toString q) t)[i + 1]? =
            some (r.period ++ "," ++
              csvCell (fun q => toString q) r.desemprego ++ "," ++
              csvCell (fun q => toString q) r.ipca ++ "," ++
              csvCell (fun q => toString q) r.pib_vol) :=
  export_csv_header_and_rows (fun q => toString q) "lula_ii"
    ⟨2007, 1, 1⟩ ⟨2010, 12, 31⟩ [] [] []
    (by unfold GOVERNOS; exact List.mem_cons_self _ _) (by simp)

/-- C10: the quarterly expansion is partial — it fails (the uncaught
`KeyError`) precisely when some input point's month is not 1, 4, 7 or 10,
and exactly then the whole `montar_dataset` pipeline dies with it instead
of degrading to missing data. -/
theorem expand_keyerror_on_non_quarter (s : List (Date × Option ℚ)) :
    (expand_trimestre_para_meses s = none ↔
      ∃ p ∈ s, ¬ QuarterMonth p.1.month) ∧
    ∀ ini fim sD sI, (montar_dataset ini fim sD sI s = none ↔
      expand_trimestre_para_meses s = none) := by
  refine ⟨expand_eq_none_iff s, ?_⟩
  intro ini fim sD sI
  unfold montar_dataset
  cases h : expand_trimestre_para_meses s <;> simp [h]

end PyGov
